import Mathlib

/-
Verification of the `reactions` package (nuclear reaction catalog):
a shallow embedding of `src/reactions/particle.py`, `reaction_category.py`,
`reaction.py` and `reaction_rate.py`, with the flyweight intern caches
modelled as explicit state (an object heap indexed by allocation ids).

Machine floats are modelled as `Rat` (all arithmetic in the source is
exact enough for the claims at hand), Python `None`-able values as
`Option`, and raised exceptions as explicit error results.
-/

/-- Python exceptions that the modelled code can raise. -/
inductive PyErr where
  | notImplemented
  | attributeError
  | typeError
  | fissionTarget
deriving DecidableEq, Repr

/-- Nuclide identifier (external `isotopes.ZAID`): proton number `Z`,
mass number `A`, and excited state.  It is a plain value type with
structural equality, exactly the surface `calc_target` and the flyweight
keys consume. -/
structure ZAID where
  Z : Int
  A : Int
  state : Int
deriving DecidableEq, Repr

/-- Modelled from the spec: `spectrum.py` is absent from `src/`; spectra are
an explicitly unimplemented placeholder (constructing a `ProtoReaction` with
non-empty spectra is a hard error), so only the length of the spectra tuple
is ever observable. -/
abbrev Spectrum : Type := Unit

/-- Nuclear particle (`particle.py`, class `Particle`): charge `Z`, mass `A`,
a name and an optional display sign.  Equality and hash cover all four
fields. -/
structure Particle where
  Z : Int
  A : Int
  name : String
  sign : Option String := none
deriving DecidableEq, Repr

def Photon : Particle := ⟨0, 0, "photon", some ("$\\gamma$")⟩

def Neutron : Particle := ⟨0, 1, "neutron", some ("n")⟩

def Proton : Particle := ⟨1, 1, "proton", some ("p")⟩

def Deutron : Particle := ⟨1, 2, "Deutron", some ("d")⟩

def Triton : Particle := ⟨1, 3, "triton", some ("t")⟩

def Electron : Particle := ⟨-1, 0, "electron", some ("$e^-$")⟩

def Positron : Particle := ⟨1, 0, "positron", some ("$e^+$")⟩

def He3 : Particle := ⟨2, 3, "helium-3", some ("$^\x7b3\x7dHe$")⟩

def Alpha : Particle := ⟨2, 4, "alpha", some ("$\\alpha$")⟩

namespace Typus

/-
Modelled from the spec: `typus.py` is absent from `src/`.  The spec fixes
the tag shape `"(X,...)"` with the inducing-particle symbol before the
first comma (e.g. "(n,2n)", "(n,fission)"); the sub-tag after the comma is
derived here from each constant's name.  All claims depend only on the
inducing symbol, on `NFission` being the fission tag, and on the tags
being distinct.
-/

def N2ND : String := "(n,2nd)"

def N2N : String := "(n,2n)"

def N3N : String := "(n,3n)"

def NFission : String := "(n,fission)"

def NNAlpha : String := "(n,na)"

def NN3Alpha : String := "(n,n3a)"

def N2NAlpha : String := "(n,2na)"

def N3NAlpha : String := "(n,3na)"

def NNP : String := "(n,np)"

def NN2Alpha : String := "(n,n2a)"

def N2N2Alpha : String := "(n,2n2a)"

def NND : String := "(n,nd)"

def NNT : String := "(n,nt)"

def NNHe3 : String := "(n,nhe3)"

def NND2Alpha : String := "(n,nd2a)"

def NNT2Alpha : String := "(n,nt2a)"

def N4N : String := "(n,4n)"

def N2NP : String := "(n,2np)"

def N3NP : String := "(n,3np)"

def NN2P : String := "(n,n2p)"

def NNPAlpha : String := "(n,npa)"

def NGamma : String := "(n,gamma)"

def NP : String := "(n,p)"

def ND : String := "(n,d)"

def NT : String := "(n,t)"

def NHe3 : String := "(n,he3)"

def NAlpha : String := "(n,a)"

def N2Alpha : String := "(n,2a)"

def N3Alpha : String := "(n,3a)"

def N2P : String := "(n,2p)"

def NPAlpha : String := "(n,pa)"

def NT2Alpha : String := "(n,t2a)"

def ND2Alpha : String := "(n,d2a)"

def NPD : String := "(n,pd)"

def NPT : String := "(n,pt)"

def NDAlpha : String := "(n,da)"

def N5N : String := "(n,5n)"

def N6N : String := "(n,6n)"

def N2NT : String := "(n,2nt)"

def N4NP : String := "(n,4np)"

def N3ND : String := "(n,3nd)"

def NNDAlpha : String := "(n,nda)"

def N2NPAlpha : String := "(n,2npa)"

def N7N : String := "(n,7n)"

def N8N : String := "(n,8n)"

def N5NP : String := "(n,5np)"

def N6NP : String := "(n,6np)"

def N7NP : String := "(n,7np)"

def N4NAlpha : String := "(n,4na)"

def N5NAlpha : String := "(n,5na)"

def N6NAlpha : String := "(n,6na)"

def N7NAlpha : String := "(n,7na)"

def N4ND : String := "(n,4nd)"

def N5ND : String := "(n,5nd)"

def N6ND : String := "(n,6nd)"

def N3NT : String := "(n,3nt)"

def N4NT : String := "(n,4nt)"

def N5NT : String := "(n,5nt)"

def N6NT : String := "(n,6nt)"

def N2NHe3 : String := "(n,2nhe3)"

def N3NHe3 : String := "(n,3nhe3)"

def N4NHe3 : String := "(n,4nhe3)"

def N3N2P : String := "(n,3n2p)"

def N3N2Alpha : String := "(n,3n2a)"

def N3NPAlpha : String := "(n,3npa)"

def NDT : String := "(n,dt)"

def NNPD : String := "(n,npd)"

def NNPT : String := "(n,npt)"

def NNDT : String := "(n,ndt)"

def NNPHe3 : String := "(n,nphe3)"

def NNDHe3 : String := "(n,ndhe3)"

def NNTHe3 : String := "(n,nthe3)"

def NNTAlpha : String := "(n,nta)"

def N2N2P : String := "(n,2n2p)"

def NPHe3 : String := "(n,phe3)"

def NDHe3 : String := "(n,dhe3)"

def NHe3Alpha : String := "(n,he3a)"

def N4N2P : String := "(n,4n2p)"

def N4N2Alpha : String := "(n,4n2a)"

def N4NPAlpha : String := "(n,4npa)"

def N3P : String := "(n,3p)"

def NN3P : String := "(n,n3p)"

def N3N2PAlpha : String := "(n,3n2pa)"

def N5N2P : String := "(n,5n2p)"

def NAnything : String := "(n,anything)"

def NInelastic : String := "(n,inelastic)"

def NHeating : String := "(n,heating)"

end Typus

/-- Abstract nuclear reaction category (`reaction_category.py`, class
`ReactionCategory`): a type tag, the multiset of released particles (a
`Counter`, modelled as a list of `(particle, count)` pairs with distinct
particles), and the daughter's excited state. -/
structure ReactionCategory where
  typus : String
  releases : List (Particle × Nat)
  targetState : Int := 0
deriving DecidableEq, Repr

/-- Characters the inducing-symbol group of the source regex
`r'\(([\\\w]+),.*\)'` can match: word characters and the backslash. -/
def isSymbolChar (c : Char) : Bool :=
  c.isAlphanum || c = '_' || c = '\\'

/-- The inducing-particle symbol extracted from a type tag: the regex match
group before the first comma inside the parentheses, or `none` when the
pattern does not match (in Python, `re.match` returning `None` makes
`.groups()` raise an `AttributeError`). -/
def inducingSymbol (typus : String) : Option String :=
  match typus.data with
  | '(' :: rest =>
      let sym := rest.takeWhile (fun c => isSymbolChar c)
      let after := rest.drop sym.length
      match after with
      | ',' :: tail => if sym ≠ [] ∧ ')' ∈ tail then some (String.mk sym) else none
      | _ => none
  | _ => none

/-- The fixed symbol table `ReactionCategory._induce_dict`. -/
def induceDict (sym : String) : Option Particle :=
  if sym = "n" then some Neutron
  else if sym = "p" then some Proton
  else if sym = "\\gamma" then some Photon
  else none

/-- `ReactionCategory.induced_by`: parse the inducing symbol out of the type
tag and map it through the fixed table; an unmapped symbol raises
`NotImplementedError`, a non-matching tag an `AttributeError`. -/
def inducedBy (c : ReactionCategory) : Except PyErr Particle :=
  match inducingSymbol c.typus with
  | none => .error .attributeError
  | some sym =>
      match induceDict sym with
      | none => .error .notImplemented
      | some p => .ok p

/-- Multiplicity-weighted total charge of the released particles:
`sum(n * particle.Z for particle, n in releases.items())`. -/
def releasedCharge (releases : List (Particle × Nat)) : Int :=
  (releases.map (fun r => (r.2 : Int) * r.1.Z)).sum

/-- Multiplicity-weighted total mass of the released particles:
`sum(n * particle.A for particle, n in releases.items())`. -/
def releasedMass (releases : List (Particle × Nat)) : Int :=
  (releases.map (fun r => (r.2 : Int) * r.1.A)).sum

/-- Modelled from the spec: `Isotope.from_zaid_with_fallback` of the external
`isotopes` catalog resolves a `(Z, A, state)` triple to a nuclide identifier
carrying those same `Z`/`A`/`state` accessors, falling back to a synthetic
placeholder when no canonical entry exists; on the `ZAID` value itself this
is the identity. -/
def fromZaidWithFallback (z : ZAID) : ZAID := z

/-- `ReactionCategory.calc_target`: fission has no specific target
(`FissionTargetError`); otherwise balance charge and mass against the
inducing and released particles and resolve through the external catalog. -/
def calcTarget (c : ReactionCategory) (parent : ZAID) : Except PyErr ZAID :=
  if c.typus = Typus.NFission then .error .fissionTarget
  else
    match inducedBy c with
    | .error e => .error e
    | .ok p =>
        let z := parent.Z + p.Z - releasedCharge c.releases
        let a := parent.A + p.A - releasedMass c.releases
        .ok (fromZaidWithFallback ⟨z, a, c.targetState⟩)

def N2ND : ReactionCategory := ⟨Typus.N2ND, [(Neutron, 2), (Deutron, 1)], 0⟩

def N2N : ReactionCategory := ⟨Typus.N2N, [(Neutron, 2)], 0⟩

def N3N : ReactionCategory := ⟨Typus.N3N, [(Neutron, 3)], 0⟩

def Fission : ReactionCategory := ⟨Typus.NFission, [(Neutron, 1), (Photon, 1)], 0⟩

def NNAlpha : ReactionCategory := ⟨Typus.NNAlpha, [(Neutron, 1), (Alpha, 1)], 0⟩

def NN3Alpha : ReactionCategory := ⟨Typus.NN3Alpha, [(Neutron, 1), (Alpha, 3)], 0⟩

def N2NAlpha : ReactionCategory := ⟨Typus.N2NAlpha, [(Neutron, 2), (Alpha, 1)], 0⟩

def N3NAlpha : ReactionCategory := ⟨Typus.N3NAlpha, [(Neutron, 3), (Alpha, 1)], 0⟩

def NNP : ReactionCategory := ⟨Typus.NNP, [(Neutron, 1), (Proton, 1)], 0⟩

def NN2Alpha : ReactionCategory := ⟨Typus.NN2Alpha, [(Neutron, 1), (Alpha, 2)], 0⟩

def N2N2Alpha : ReactionCategory := ⟨Typus.N2N2Alpha, [(Neutron, 2), (Alpha, 2)], 0⟩

def NND : ReactionCategory := ⟨Typus.NND, [(Neutron, 1), (Deutron, 1)], 0⟩

def NNT : ReactionCategory := ⟨Typus.NNT, [(Neutron, 1), (Triton, 1)], 0⟩

def NNHe3 : ReactionCategory := ⟨Typus.NNHe3, [(Neutron, 1), (He3, 1)], 0⟩

def NND2Alpha : ReactionCategory := ⟨Typus.NND2Alpha, [(Neutron, 1), (Deutron, 1), (Alpha, 2)], 0⟩

def NNT2Alpha : ReactionCategory := ⟨Typus.NNT2Alpha, [(Neutron, 1), (Triton, 1), (Alpha, 2)], 0⟩

def N4N : ReactionCategory := ⟨Typus.N4N, [(Neutron, 4)], 0⟩

def N2NP : ReactionCategory := ⟨Typus.N2NP, [(Neutron, 2), (Proton, 1)], 0⟩

def N3NP : ReactionCategory := ⟨Typus.N3NP, [(Neutron, 3), (Proton, 1)], 0⟩

def NN2P : ReactionCategory := ⟨Typus.NN2P, [(Neutron, 1), (Proton, 2)], 0⟩

def NNPAlpha : ReactionCategory := ⟨Typus.NNPAlpha, [(Neutron, 1), (Proton, 1), (Alpha, 1)], 0⟩

def NGamma : ReactionCategory := ⟨Typus.NGamma, [(Photon, 1)], 0⟩

def NP : ReactionCategory := ⟨Typus.NP, [(Proton, 1)], 0⟩

def ND : ReactionCategory := ⟨Typus.ND, [(Deutron, 1)], 0⟩

def NT : ReactionCategory := ⟨Typus.NT, [(Triton, 1)], 0⟩

def NHe3 : ReactionCategory := ⟨Typus.NHe3, [(He3, 1)], 0⟩

def NAlpha : ReactionCategory := ⟨Typus.NAlpha, [(Alpha, 1)], 0⟩

def N2Alpha : ReactionCategory := ⟨Typus.N2Alpha, [(Alpha, 2)], 0⟩

def N3Alpha : ReactionCategory := ⟨Typus.N3Alpha, [(Alpha, 3)], 0⟩

def N2P : ReactionCategory := ⟨Typus.N2P, [(Proton, 2)], 0⟩

def NPAlpha : ReactionCategory := ⟨Typus.NPAlpha, [(Proton, 1), (Alpha, 1)], 0⟩

def NT2Alpha : ReactionCategory := ⟨Typus.NT2Alpha, [(Triton, 1), (Alpha, 2)], 0⟩

def ND2Alpha : ReactionCategory := ⟨Typus.ND2Alpha, [(Deutron, 1), (Alpha, 2)], 0⟩

def NPD : ReactionCategory := ⟨Typus.NPD, [(Proton, 1), (Deutron, 1)], 0⟩

def NPT : ReactionCategory := ⟨Typus.NPT, [(Proton, 1), (Triton, 1)], 0⟩

def NDAlpha : ReactionCategory := ⟨Typus.NDAlpha, [(Deutron, 1), (Alpha, 1)], 0⟩

def N5N : ReactionCategory := ⟨Typus.N5N, [(Neutron, 5)], 0⟩

def N6N : ReactionCategory := ⟨Typus.N6N, [(Neutron, 6)], 0⟩

def N2NT : ReactionCategory := ⟨Typus.N2NT, [(Neutron, 2), (Triton, 1)], 0⟩

def N4NP : ReactionCategory := ⟨Typus.N4NP, [(Neutron, 4), (Proton, 1)], 0⟩

def N3ND : ReactionCategory := ⟨Typus.N3ND, [(Neutron, 3), (Deutron, 1)], 0⟩

def NNDAlpha : ReactionCategory := ⟨Typus.NNDAlpha, [(Neutron, 1), (Deutron, 1), (Alpha, 1)], 0⟩

def N2NPAlpha : ReactionCategory := ⟨Typus.N2NPAlpha, [(Neutron, 2), (Proton, 1), (Alpha, 1)], 0⟩

def N7N : ReactionCategory := ⟨Typus.N7N, [(Neutron, 7)], 0⟩

def N8N : ReactionCategory := ⟨Typus.N8N, [(Neutron, 8)], 0⟩

def N5NP : ReactionCategory := ⟨Typus.N5NP, [(Neutron, 5), (Proton, 1)], 0⟩

def N6NP : ReactionCategory := ⟨Typus.N6NP, [(Neutron, 6), (Proton, 1)], 0⟩

def N7NP : ReactionCategory := ⟨Typus.N7NP, [(Neutron, 7), (Proton, 1)], 0⟩

def N4NAlpha : ReactionCategory := ⟨Typus.N4NAlpha, [(Neutron, 4), (Alpha, 1)], 0⟩

def N5NAlpha : ReactionCategory := ⟨Typus.N5NAlpha, [(Neutron, 5), (Alpha, 1)], 0⟩

def N6NAlpha : ReactionCategory := ⟨Typus.N6NAlpha, [(Neutron, 6), (Alpha, 1)], 0⟩

def N7NAlpha : ReactionCategory := ⟨Typus.N7NAlpha, [(Neutron, 7), (Alpha, 1)], 0⟩

def N4ND : ReactionCategory := ⟨Typus.N4ND, [(Neutron, 4), (Deutron, 1)], 0⟩

def N5ND : ReactionCategory := ⟨Typus.N5ND, [(Neutron, 5), (Deutron, 1)], 0⟩

def N6ND : ReactionCategory := ⟨Typus.N6ND, [(Neutron, 6), (Deutron, 1)], 0⟩

def N3NT : ReactionCategory := ⟨Typus.N3NT, [(Neutron, 3), (Triton, 1)], 0⟩

def N4NT : ReactionCategory := ⟨Typus.N4NT, [(Neutron, 4), (Triton, 1)], 0⟩

def N5NT : ReactionCategory := ⟨Typus.N5NT, [(Neutron, 5), (Triton, 1)], 0⟩

def N6NT : ReactionCategory := ⟨Typus.N6NT, [(Neutron, 6), (Triton, 1)], 0⟩

def N2NHe3 : ReactionCategory := ⟨Typus.N2NHe3, [(Neutron, 2), (He3, 1)], 0⟩

def N3NHe3 : ReactionCategory := ⟨Typus.N3NHe3, [(Neutron, 3), (He3, 1)], 0⟩

def N4NHe3 : ReactionCategory := ⟨Typus.N4NHe3, [(Neutron, 4), (He3, 1)], 0⟩

def N3N2P : ReactionCategory := ⟨Typus.N3N2P, [(Neutron, 3), (Proton, 2)], 0⟩

def N3N2Alpha : ReactionCategory := ⟨Typus.N3N2Alpha, [(Neutron, 3), (Alpha, 2)], 0⟩

def N3NPAlpha : ReactionCategory := ⟨Typus.N3NPAlpha, [(Neutron, 3), (Proton, 1), (Alpha, 1)], 0⟩

def NDT : ReactionCategory := ⟨Typus.NDT, [(Deutron, 1), (Triton, 1)], 0⟩

def NNPD : ReactionCategory := ⟨Typus.NNPD, [(Neutron, 1), (Proton, 1), (Deutron, 1)], 0⟩

def NNPT : ReactionCategory := ⟨Typus.NNPT, [(Neutron, 1), (Proton, 1), (Triton, 1)], 0⟩

def NNDT : ReactionCategory := ⟨Typus.NNDT, [(Neutron, 1), (Deutron, 1), (Triton, 1)], 0⟩

def NNPHe3 : ReactionCategory := ⟨Typus.NNPHe3, [(Neutron, 1), (Proton, 1), (He3, 1)], 0⟩

def NNDHe3 : ReactionCategory := ⟨Typus.NNDHe3, [(Neutron, 1), (Deutron, 1), (He3, 1)], 0⟩

def NNTHe3 : ReactionCategory := ⟨Typus.NNTHe3, [(Neutron, 1), (Triton, 1), (He3, 1)], 0⟩

def NNTAlpha : ReactionCategory := ⟨Typus.NNTAlpha, [(Neutron, 1), (Triton, 1), (Alpha, 1)], 0⟩

def N2N2P : ReactionCategory := ⟨Typus.N2N2P, [(Neutron, 2), (Proton, 2)], 0⟩

def NPHe3 : ReactionCategory := ⟨Typus.NPHe3, [(Proton, 1), (He3, 1)], 0⟩

def NDHe3 : ReactionCategory := ⟨Typus.NDHe3, [(Deutron, 1), (He3, 1)], 0⟩

def NHe3Alpha : ReactionCategory := ⟨Typus.NHe3Alpha, [(He3, 1), (Alpha, 1)], 0⟩

def N4N2P : ReactionCategory := ⟨Typus.N4N2P, [(Neutron, 4), (Proton, 2)], 0⟩

def N4N2Alpha : ReactionCategory := ⟨Typus.N4N2Alpha, [(Neutron, 4), (Alpha, 2)], 0⟩

def N4NPAlpha : ReactionCategory := ⟨Typus.N4NPAlpha, [(Neutron, 4), (Proton, 1), (Alpha, 1)], 0⟩

def N3P : ReactionCategory := ⟨Typus.N3P, [(Proton, 3)], 0⟩

def NN3P : ReactionCategory := ⟨Typus.NN3P, [(Neutron, 1), (Proton, 3)], 0⟩

def N3N2PAlpha : ReactionCategory := ⟨Typus.N3N2PAlpha, [(Neutron, 3), (Proton, 2), (Alpha, 1)], 0⟩

def N5N2P : ReactionCategory := ⟨Typus.N5N2P, [(Neutron, 5), (Proton, 2)], 0⟩

def NAnything : ReactionCategory := ⟨Typus.NAnything, [(Neutron, 1)], 0⟩

def NInelastic : ReactionCategory := ⟨Typus.NInelastic, [(Neutron, 1), (Photon, 1)], 0⟩

def NHeating : ReactionCategory := ⟨Typus.NHeating, [(Neutron, 1)], 0⟩

/-- The static catalog of `ReactionCategory` constants defined at module
load in `reaction_category.py` (the `ProductionReactionCategory` constants
are a separate kind and not included). -/
def staticCatalog : List ReactionCategory :=
  [N2ND, N2N, N3N, Fission, NNAlpha, NN3Alpha, N2NAlpha, N3NAlpha, NNP,
   NN2Alpha, N2N2Alpha, NND, NNT, NNHe3, NND2Alpha, NNT2Alpha, N4N, N2NP,
   N3NP, NN2P, NNPAlpha, NGamma, NP, ND, NT, NHe3, NAlpha, N2Alpha, N3Alpha,
   N2P, NPAlpha, NT2Alpha, ND2Alpha, NPD, NPT, NDAlpha, N5N, N6N, N2NT,
   N4NP, N3ND, NNDAlpha, N2NPAlpha, N7N, N8N, N5NP, N6NP, N7NP, N4NAlpha,
   N5NAlpha, N6NAlpha, N7NAlpha, N4ND, N5ND, N6ND, N3NT, N4NT, N5NT, N6NT,
   N2NHe3, N3NHe3, N4NHe3, N3N2P, N3N2Alpha, N3NPAlpha, NDT, NNPD, NNPT,
   NNDT, NNPHe3, NNDHe3, NNTHe3, NNTAlpha, N2N2P, NPHe3, NDHe3, NHe3Alpha,
   N4N2P, N4N2Alpha, N4NPAlpha, N3P, NN3P, N3N2PAlpha, N5N2P, NAnything,
   NInelastic, NHeating]

deriving instance DecidableEq for Except

/-- A Python `dict[ZAID, float]` (a branching table): an insertion-ordered
finite map, modelled as its list of items; keys are distinct in any list
that denotes an actual dict. -/
abbrev BDict : Type := List (ZAID × Rat)

/-- The (keyword) arguments of `ProtoReaction.__new__` / `__init__`, with the
source's defaults.  `branching` is `Option`al because callers pass `None`
explicitly (`deserialize`, the test strategies). -/
structure PRArgs where
  parent : ZAID
  typus : String := ""
  energy : Rat := 0
  energy_err : Rat := 0
  nu : Rat := 0
  branching : Option BDict := none
  spectra : List Spectrum := []
deriving DecidableEq

/-- `frozenset(branching.items() if branching else ())`: both `None` and the
empty dict are falsy and freeze to the empty set. -/
def brFreeze : Option BDict → Finset (ZAID × Rat)
  | none => ∅
  | some l => if l.isEmpty then ∅ else l.toFinset

/-- The identity key under which `ProtoReaction.__new__` interns:
`(parent, typus, energy, energy_err, nu, frozendict, spectra)`. -/
structure PRKey where
  parent : ZAID
  typus : String
  energy : Rat
  energy_err : Rat
  nu : Rat
  frozendict : Finset (ZAID × Rat)
  spectra : List Spectrum
deriving DecidableEq

def protoKey (a : PRArgs) : PRKey :=
  ⟨a.parent, a.typus, a.energy, a.energy_err, a.nu, brFreeze a.branching, a.spectra⟩

/-- The instance attributes of a `ProtoReaction` object (`self.__dict__`):
each is `none` until `__init__` assigns it (a freshly `__new__`-ed object has
no attributes). -/
structure PRFields where
  parent : Option ZAID := none
  typus : Option String := none
  energy : Option Rat := none
  energy_err : Option Rat := none
  spectra : Option (List Spectrum) := none
  branching : Option (Option BDict) := none
  nu : Option Rat := none
deriving DecidableEq

/-- `ProtoReaction.__init__`: assigns `_parent`, `_typus`, `_energy`,
`_energy_err` in order, then raises `NotImplementedError` on non-empty
`spectra` before `_spectra`, `_branching`, `_nu` are assigned. -/
def protoInit (f : PRFields) (a : PRArgs) : PRFields × Option PyErr :=
  let f1 := { f with parent := some a.parent, typus := some a.typus,
                     energy := some a.energy, energy_err := some a.energy_err }
  if a.spectra.isEmpty then
    ({ f1 with spectra := some a.spectra, branching := some a.branching,
               nu := some a.nu }, none)
  else (f1, some .notImplemented)

/-- Instance attributes of a `Reaction` object: `_proto` holds a reference
(heap id) to the owning `ProtoReaction`, `_target` the target nuclide. -/
structure RFields where
  proto : Option Nat := none
  target : Option ZAID := none
deriving DecidableEq

/-- Instance attributes of a `ProductionReaction` object. -/
structure PdFields where
  parent : Option ZAID := none
  target : Option ZAID := none
  typus : Option String := none
deriving DecidableEq

/-- The identity key of `ProductionReaction.__new__`: `(parent, target, typus)`. -/
abbrev PdKey : Type := ZAID × ZAID × String

/-- The process-wide object state: one intern cache (`cls._members_`) and one
heap per flyweight kind, and a fresh-id allocator.  `Reaction`'s cache is
kept as an association list because its keys embed a mutable `ProtoReaction`
object: Python dict lookup re-evaluates the stored key against the probe, so
the lookup below resolves the stored proto's current attributes. -/
structure World where
  prCache : PRKey → Option Nat
  prHeap : Nat → Option PRFields
  rCache : List ((Nat × ZAID) × Nat)
  rHeap : Nat → Option RFields
  pdCache : PdKey → Option Nat
  pdHeap : Nat → Option PdFields
  next : Nat

/-- A process that has constructed no flyweight objects yet. -/
def initWorld : World :=
  ⟨fun _ => none, fun _ => none, [], fun _ => none, fun _ => none, fun _ => none, 0⟩

/-- `ProtoReaction.__new__`: return the interned object for the identity key
if present, else allocate a fresh (attribute-less) object and intern it. -/
def protoNew (w : World) (a : PRArgs) : World × Nat :=
  match w.prCache (protoKey a) with
  | some o => (w, o)
  | none =>
      ({ w with
          prCache := fun k => if k = protoKey a then some w.next else w.prCache k
          prHeap := fun i => if i = w.next then some {} else w.prHeap i
          next := w.next + 1 }, w.next)

/-- A full `ProtoReaction(...)` construction: `__new__` (intern lookup or
allocation) followed by `__init__` on the returned object — also when the
object came from the cache, re-assigning its attributes from the new
arguments. -/
def protoCall (w : World) (a : PRArgs) : World × Nat × Option PyErr :=
  let p := protoNew w a
  let r := protoInit ((p.1.prHeap p.2).getD {}) a
  ({ p.1 with prHeap := fun i => if i = p.2 then some r.1 else p.1.prHeap i },
   p.2, r.2)

/-- The structural content a `ProtoReaction` exposes through
`__getnewargs_ex__` (what `__eq__` compares): the branching dict is compared
as a finite map, with `None` distinct from the empty dict. -/
structure PRContent where
  parent : ZAID
  typus : String
  energy : Rat
  energy_err : Rat
  nu : Rat
  branching : Option (Finset (ZAID × Rat))
  spectra : List Spectrum
deriving DecidableEq

/-- Read a proto object's structural content; `none` when an attribute is
missing (Python would raise `AttributeError`). -/
def contentOf (f : PRFields) : Option PRContent :=
  match f.parent, f.typus, f.energy, f.energy_err, f.nu, f.branching, f.spectra with
  | some p, some t, some e, some ee, some n, some b, some s =>
      some ⟨p, t, e, ee, n, b.map (fun l => l.toFinset), s⟩
  | _, _, _, _, _, _, _ => none

def contentAt (w : World) (o : Nat) : Option PRContent :=
  (w.prHeap o).bind contentOf

/-- `ProtoReaction.__eq__` between two proto objects; `none` models the
`AttributeError` on a not-fully-initialised operand. -/
def protoPyEq (w : World) (o1 o2 : Nat) : Option Bool :=
  match contentAt w o1, contentAt w o2 with
  | some c1, some c2 => some (decide (c1 = c2))
  | _, _ => none

/-- Structural proto comparison as used inside tuple keys (boolean view;
an uninitialised distinct operand compares unequal — in reachable states
every interned proto is at least partially initialised and the identity
shortcut below fires first for the same object). -/
def contentEqB (w : World) (o1 o2 : Nat) : Bool :=
  match contentAt w o1, contentAt w o2 with
  | some c1, some c2 => decide (c1 = c2)
  | _, _ => false

/-- Probe of `Reaction._members_[(proto, target)]`: Python's tuple-key
comparison short-circuits on reference identity per element, else falls back
to `ProtoReaction.__eq__`. -/
def rKeyMatch (w : World) (p : Nat) (t : ZAID) (e : (Nat × ZAID) × Nat) : Bool :=
  (decide (e.1.1 = p) || contentEqB w e.1.1 p) && decide (e.1.2 = t)

def rLookup (w : World) (p : Nat) (t : ZAID) : Option Nat :=
  (w.rCache.find? (rKeyMatch w p t)).map (fun e => e.2)

/-- `Reaction.__new__`: intern lookup by `(proto, target)`, else allocate. -/
def reactionNew (w : World) (p : Nat) (t : ZAID) : World × Nat :=
  match rLookup w p t with
  | some o => (w, o)
  | none =>
      ({ w with
          rCache := ((p, t), w.next) :: w.rCache
          rHeap := fun i => if i = w.next then some {} else w.rHeap i
          next := w.next + 1 }, w.next)

/-- A full `Reaction(proto, target)` construction: `__new__` then `__init__`
(which re-assigns `_proto` and `_target` also on a cache hit). -/
def reactionCall (w : World) (p : Nat) (t : ZAID) : World × Nat :=
  let r := reactionNew w p t
  ({ r.1 with rHeap := fun i => if i = r.2 then some ⟨some p, some t⟩
                                else r.1.rHeap i }, r.2)

/-- `Reaction.__eq__`: `(self._proto, self._target) == (other._proto,
other._target)` — tuple comparison with per-element identity shortcut. -/
def reactionPyEq (w : World) (o1 o2 : Nat) : Option Bool :=
  match w.rHeap o1, w.rHeap o2 with
  | some ⟨some p1, some t1⟩, some ⟨some p2, some t2⟩ =>
      some ((decide (p1 = p2) || contentEqB w p1 p2) && decide (t1 = t2))
  | _, _ => none

/-- A full `ProductionReaction(parent, target, typus)` construction: intern
lookup by the value key, else allocate; `__init__` (re-)assigns the three
attributes either way. -/
def pdCall (w : World) (par t : ZAID) (ty : String) : World × Nat :=
  match w.pdCache (par, t, ty) with
  | some o =>
      ({ w with pdHeap := fun i => if i = o then some ⟨some par, some t, some ty⟩
                                   else w.pdHeap i }, o)
  | none =>
      ({ w with
          pdCache := fun k => if k = (par, t, ty) then some w.next else w.pdCache k
          pdHeap := fun i => if i = w.next then some ⟨some par, some t, some ty⟩
                             else w.pdHeap i
          next := w.next + 1 }, w.next)

/-- `ProductionReaction.__eq__`: value comparison of parent, target, typus. -/
def pdPyEq (w : World) (o1 o2 : Nat) : Option Bool :=
  match w.pdHeap o1, w.pdHeap o2 with
  | some ⟨some p1, some t1, some y1⟩, some ⟨some p2, some t2, some y2⟩ =>
      some (decide (p1 = p2) && decide (t1 = t2) && decide (y1 = y2))
  | _, _ => none

/-- Consuming `ProtoReaction.branches()`: for each `(target, weight)` item of
the branching dict, construct `Reaction(self, target)` and yield it with the
weight. -/
def branchLoop (w : World) (o : Nat) : BDict → World × List (Nat × Rat)
  | [] => (w, [])
  | (t, b) :: rest =>
      let r := reactionCall w o t
      let k := branchLoop r.1 o rest
      (k.1, (r.2, b) :: k.2)

/-- `ProtoReaction.branches()` (fully consumed): iterates
`self.branching.items()`; a missing `_branching` attribute or a `None`
branching raises `AttributeError`. -/
def protoBranches (w : World) (o : Nat) : World × Except PyErr (List (Nat × Rat)) :=
  match w.prHeap o with
  | none => (w, .error .attributeError)
  | some f =>
      match f.branching with
      | none => (w, .error .attributeError)
      | some none => (w, .error .attributeError)
      | some (some l) =>
          let r := branchLoop w o l
          (r.1, .ok r.2)

/-- `Reaction.branches()`: always exactly `yield self, 1.`. -/
def reactionBranches (w : World) (o : Nat) : World × Except PyErr (List (Nat × Rat)) :=
  (w, .ok [(o, 1)])

/-- `ProductionReaction.branches()`: always exactly `yield self, 1.`. -/
def pdBranches (w : World) (o : Nat) : World × Except PyErr (List (Nat × Rat)) :=
  (w, .ok [(o, 1)])

/-- The polymorphic `reaction` slot of a `ReactionRate`: a reference to an
interned object of one of the three flyweight kinds. -/
inductive ReactionRef where
  | proto (o : Nat)
  | reac (o : Nat)
  | prod (o : Nat)
deriving DecidableEq

/-- `ReactionRate` (`reaction_rate.py`): a plain, non-interned value object. -/
structure ReactionRate where
  component : String
  reaction : ReactionRef
  mean : Rat
  std : Rat
deriving DecidableEq

/-- `ReactionRate.from_other`: copy component and reaction, substitute new
statistics. -/
def fromOther (r : ReactionRate) (mean std : Rat) : ReactionRate :=
  ⟨r.component, r.reaction, mean, std⟩

/-- The Python value handed to `ReactionRate.__mul__` as right operand. -/
inductive PyVal where
  | intV (n : Int)
  | floatV (q : Rat)
  | boolV (b : Bool)
  | strV (s : String)
  | noneV
deriving DecidableEq

/-- Whether a value is a plain numeric value (the spec's wording): Python
ints, floats and bools (bool is an int subtype) are numeric. -/
def PyVal.isNumeric : PyVal → Bool
  | .intV _ => true
  | .floatV _ => true
  | .boolV _ => true
  | _ => false

/-- `ReactionRate.__mul__`: `NotImplemented` (surfacing as `TypeError`,
modelled `none`) unless the operand is a `float` instance — a Python `int`
or `bool` is not —, else `from_other` with mean and std scaled. -/
def rateMul (r : ReactionRate) (v : PyVal) : Option ReactionRate :=
  match v with
  | .floatV q => some (fromOther r (r.mean * q) (r.std * q))
  | _ => none

/-- `self.reaction.branches()` for the polymorphic reaction slot, tagging the
yielded objects with their kind (`ProtoReaction.branches` yields `Reaction`
objects; the other two kinds yield themselves). -/
def refBranches (w : World) (r : ReactionRef) :
    World × Except PyErr (List (ReactionRef × Rat)) :=
  match r with
  | .proto o =>
      let b := protoBranches w o
      (b.1, b.2.map (fun l => l.map (fun e => (ReactionRef.reac e.1, e.2))))
  | .reac o =>
      let b := reactionBranches w o
      (b.1, b.2.map (fun l => l.map (fun e => (ReactionRef.reac e.1, e.2))))
  | .prod o =>
      let b := pdBranches w o
      (b.1, b.2.map (fun l => l.map (fun e => (ReactionRef.prod e.1, e.2))))

/-- `ReactionRate.expand()` (fully consumed): one rate per branch, with mean
and std multiplied by the branch weight. -/
def rateExpand (w : World) (r : ReactionRate) :
    World × Except PyErr (List ReactionRate) :=
  let b := refBranches w r.reaction
  (b.1, b.2.map (fun l => l.map (fun e =>
      ReactionRate.mk r.component e.1 (r.mean * e.2) (r.std * e.2))))

/-- `np.isclose(a, b, rtol=1e-10, atol=1e-14)`. -/
def isClose (a b : Rat) : Bool :=
  decide (|a - b| ≤ 1 / 100000000000000 + (1 / 10000000000) * |b|)

/-- `==` on the polymorphic reaction slot: objects of different kinds are
unequal (`isinstance` check fails on both sides, identity fallback on
distinct objects); same-kind comparison is the kind's `__eq__`. -/
def refPyEq (w : World) (x y : ReactionRef) : Option Bool :=
  match x, y with
  | .proto a, .proto b => protoPyEq w a b
  | .reac a, .reac b => reactionPyEq w a b
  | .prod a, .prod b => pdPyEq w a b
  | _, _ => some false

/-- `ReactionRate.__eq__`: component and reaction equality plus `np.isclose`
on mean and std. -/
def ratePyEq (w : World) (r1 r2 : ReactionRate) : Option Bool :=
  (refPyEq w r1.reaction r2.reaction).map (fun b =>
    decide (r1.component = r2.component) && b
      && isClose r1.mean r2.mean && isClose r1.std r2.std)

/-
Serialization.  The external JSON layer (`ramp_core`) encodes nuclide
identifiers by their integer encoding and decodes them through
`Isotope.from_int_with_fallback`; that bijective detour is modelled as the
identity on `ZAID`, so an envelope carries the `ZAID` values themselves.
-/

/-- The field mapping `ProtoReaction.serialize` emits (its `__dict__` with
the leading underscores stripped).  Serializing is modelled only for fully
initialised objects (a partial `__dict__` would make `deserialize` fail on
the missing keys). -/
structure ProtoEnv where
  parent : ZAID
  typus : String
  energy : Rat
  energy_err : Rat
  spectra : List Spectrum
  branching : Option BDict
  nu : Rat
deriving DecidableEq

def protoSerialize (f : PRFields) : Option (String × ProtoEnv) :=
  match f.parent, f.typus, f.energy, f.energy_err, f.spectra, f.branching, f.nu with
  | some p, some t, some e, some ee, some s, some b, some n =>
      some ("ProtoReaction", ⟨p, t, e, ee, s, b, n⟩)
  | _, _, _, _, _, _, _ => none

/-- `ProtoReaction.deserialize`: decode `parent` and `branching` (passing
`None` when the serialized branching is falsy — `None` or the empty dict)
and re-construct through the interning constructor. -/
def envToArgs (e : ProtoEnv) : PRArgs :=
  { parent := e.parent, typus := e.typus, energy := e.energy,
    energy_err := e.energy_err, nu := e.nu, spectra := e.spectra,
    branching := match e.branching with
                 | some l => if l.isEmpty then none else some l
                 | none => none }

def protoDeserialize (w : World) (e : ProtoEnv) : World × Nat × Option PyErr :=
  protoCall w (envToArgs e)

/-- The field mapping `Reaction.serialize` emits: the proto's nested
envelope and the target. -/
structure ReacEnv where
  proto : String × ProtoEnv
  target : ZAID
deriving DecidableEq

def reactionSerialize (w : World) (o : Nat) : Option (String × ReacEnv) :=
  match w.rHeap o with
  | some fl =>
      match fl.proto, fl.target with
      | some p, some t =>
          match (w.prHeap p).bind protoSerialize with
          | some pe => some ("ConcreteReaction", ⟨pe, t⟩)
          | none => none
      | _, _ => none
  | none => none

/-- `Reaction.deserialize`: resolve the nested proto envelope through the
registry (`deserialize_default`, defaulting to `ProtoReaction`), then
re-construct `Reaction(proto, target)` through the interning constructor. -/
def reactionDeserialize (w : World) (e : ReacEnv) : World × Except PyErr Nat :=
  let p := protoDeserialize w e.proto.2
  match p.2.2 with
  | some err => (p.1, .error err)
  | none =>
      let r := reactionCall p.1 p.2.1 e.target
      (r.1, .ok r.2)

/-- The field mapping `ProductionReaction.serialize` emits. -/
structure PdEnv where
  parent : ZAID
  target : ZAID
  typus : String
deriving DecidableEq

def pdSerialize (w : World) (o : Nat) : Option (String × PdEnv) :=
  match w.pdHeap o with
  | some ⟨some p, some t, some y⟩ => some ("ProductionReaction", ⟨p, t, y⟩)
  | _ => none

def pdDeserialize (w : World) (e : PdEnv) : World × Nat :=
  pdCall w e.parent e.target e.typus

/-- The field mapping `Particle.serialize` emits. -/
structure ParticleEnv where
  charge : Int
  mass : Int
  name : String
  sign : Option String
deriving DecidableEq

def particleSerialize (p : Particle) : String × ParticleEnv :=
  ("Particle", ⟨p.Z, p.A, p.name, p.sign⟩)

def particleDeserialize (e : ParticleEnv) : Particle :=
  ⟨e.charge, e.mass, e.name, e.sign⟩

/-- The nested reaction envelope inside a serialized `ReactionRate`; the
constructor distinguishes the three possible type tags the registry can
dispatch to. -/
inductive ReactionEnv where
  | proto (e : ProtoEnv)
  | reac (e : ReacEnv)
  | prod (e : PdEnv)
deriving DecidableEq

/-- The field mapping `ReactionRate.serialize` emits. -/
structure RateEnv where
  component : String
  reaction : ReactionEnv
  mean : Rat
  std : Rat
deriving DecidableEq

def rateSerialize (w : World) (r : ReactionRate) : Option (String × RateEnv) :=
  match r.reaction with
  | .proto o =>
      ((w.prHeap o).bind protoSerialize).map (fun pe =>
        ("ReactionRate", ⟨r.component, .proto pe.2, r.mean, r.std⟩))
  | .reac o =>
      (reactionSerialize w o).map (fun re =>
        ("ReactionRate", ⟨r.component, .reac re.2, r.mean, r.std⟩))
  | .prod o =>
      (pdSerialize w o).map (fun pe =>
        ("ReactionRate", ⟨r.component, .prod pe.2, r.mean, r.std⟩))

/-- `deserialize_default` on the nested reaction envelope: dispatch on its
type tag through the supported registry and deserialize the payload. -/
def envDispatch (w : World) (e : ReactionEnv) : World × Except PyErr ReactionRef :=
  match e with
  | .proto pe =>
      let p := protoDeserialize w pe
      (p.1, match p.2.2 with
            | some err => .error err
            | none => .ok (.proto p.2.1))
  | .reac re =>
      let r := reactionDeserialize w re
      (r.1, r.2.map ReactionRef.reac)
  | .prod pe =>
      let r := pdDeserialize w pe
      (r.1, .ok (.prod r.2))

/-- `ReactionRate.deserialize`: deserialize the nested reaction, then build
the rate from the remaining fields. -/
def rateDeserialize (w : World) (e : RateEnv) : World × Except PyErr ReactionRate :=
  let d := envDispatch w e.reaction
  (d.1, d.2.map (fun ref => ⟨e.component, ref, e.mean, e.std⟩))

/-- The entries of the `jsonable` registry (`reactions/__init__.py`). -/
inductive JKind where
  | reactionCategory
  | reaction
  | protoReaction
  | productionReaction
  | reactionRate
  | particle
deriving DecidableEq

def jsonable : List JKind :=
  [.reactionCategory, .reaction, .protoReaction, .productionReaction,
   .reactionRate, .particle]

/-- The `ser_identifier` class attribute of each registry entry, read off
the source files: `ReactionCategory` (`reaction_category.py`) defines none
— accessing it raises `AttributeError`, modelled as `none`. -/
def serIdentifier? : JKind → Option String
  | .reactionCategory => none
  | .reaction => some ("ConcreteReaction")
  | .protoReaction => some ("ProtoReaction")
  | .productionReaction => some ("ProductionReaction")
  | .reactionRate => some ("ReactionRate")
  | .particle => some ("Particle")

/-- Whether the class defines the `serialize` / `deserialize` methods of the
serialization protocol: every registry entry does except `ReactionCategory`. -/
def implementsSerialize : JKind → Bool
  | .reactionCategory => false
  | _ => true

/-- Every category of the static catalog parses to the neutron as inducing
particle (all its tags have the shape `"(n,...)"`). -/
theorem catalog_induced_by_neutron : ∀ c ∈ staticCatalog, inducedBy c = .ok Neutron := by
  decide

/-- C4: `calc_target` on a fission-type category (type tag `Typus.NFission`)
fails with the distinct `FissionTargetError` for every parent nuclide;
no target value is returned. -/
theorem calc_target_fission_fails (c : ReactionCategory) (parent : ZAID)
    (hf : c.typus = Typus.NFission) :
    calcTarget c parent = .error .fissionTarget := by
  simp [calcTarget, hf]

theorem calc_target_fission_fails_witness :
    Fission.typus = Typus.NFission ∧
      calcTarget Fission ⟨92, 235, 0⟩ = .error .fissionTarget :=
  ⟨rfl, calc_target_fission_fails Fission ⟨92, 235, 0⟩ rfl⟩

/-- C3: for every non-fission category of the static catalog (whose inducing
symbol is the supported `"n"`), `calc_target` balances charge and mass: the
result has `Z = parent.Z + induced_by.Z - Σ count·particle.Z` over the
released particles, `A` likewise, at the category's target state. -/
theorem calc_target_balance (c : ReactionCategory) (p : ZAID)
    (hc : c ∈ staticCatalog) (hnf : c.typus ≠ Typus.NFission) :
    inducedBy c = .ok Neutron ∧
      calcTarget c p = .ok ⟨p.Z + Neutron.Z - releasedCharge c.releases,
                            p.A + Neutron.A - releasedMass c.releases,
                            c.targetState⟩ := by
  have hind := catalog_induced_by_neutron c hc
  refine ⟨hind, ?_⟩
  simp [calcTarget, hnf, hind, fromZaidWithFallback]

theorem calc_target_balance_witness :
    calcTarget NGamma ⟨1, 1, 0⟩ = .ok ⟨1, 2, 0⟩ := by
  have h := calc_target_balance NGamma ⟨1, 1, 0⟩ (by decide) (by decide)
  rw [h.2]
  decide

/-- C8 (code-bug evidence): the five `ser_identifier` tags that the registry
entries actually define are pairwise distinct, but `ReactionCategory` — a
member of `jsonable` — defines no `ser_identifier` and no serialization
methods at all, so the registry invariant fails on it. -/
theorem registry_identifier_status :
    (jsonable.filterMap serIdentifier?).Nodup ∧
      (jsonable.filterMap serIdentifier?).length = 5 ∧
      serIdentifier? .reactionCategory = none ∧
      implementsSerialize .reactionCategory = false := by
  decide

/-- C7 is false as stated: a Python `int` is a plain numeric value, yet
`__mul__` requires a `float` instance, so scaling by `2` fails. -/
theorem rate_mul_numeric_claim_false :
    ¬ ∀ (r : ReactionRate) (v : PyVal),
        v.isNumeric = true → (rateMul r v).isSome = true := by
  intro h
  have := h ⟨"c", .prod 0, 10, 1⟩ (.intV 2) rfl
  simp [rateMul] at this

/-- C7 (amended): `rate * s` succeeds exactly when `s` is a float — an `int`
or any non-numeric value fails — and then returns a rate with the same
component and reaction and with mean and std each scaled by `s`. -/
theorem rate_mul_scales_floats_only (r : ReactionRate) (v : PyVal) :
    (∀ q, v = .floatV q → rateMul r v =
        some ⟨r.component, r.reaction, r.mean * q, r.std * q⟩) ∧
      ((∀ q, v ≠ .floatV q) → rateMul r v = none) := by
  constructor
  · rintro q rfl
    rfl
  · intro h
    cases v with
    | floatV q => exact absurd rfl (h q)
    | intV n => rfl
    | boolV b => rfl
    | strV s => rfl
    | noneV => rfl

theorem rate_mul_scales_floats_only_witness :
    rateMul ⟨"c", .prod 0, 10, 1⟩ (.floatV 2) = some ⟨"c", .prod 0, 20, 2⟩ ∧
      rateMul ⟨"c", .prod 0, 10, 1⟩ (.intV 2) = none := by
  have h1 := (rate_mul_scales_floats_only ⟨"c", .prod 0, 10, 1⟩ (.floatV 2)).1 2 rfl
  have h2 := (rate_mul_scales_floats_only ⟨"c", .prod 0, 10, 1⟩ (.intV 2)).2
    (fun q h => by cases h)
  rw [h1, h2]
  norm_num

/-- `__init__` with empty spectra fully initialises the object from the
arguments, whatever its previous attributes were. -/
theorem protoInit_full (f : PRFields) (a : PRArgs) (hs : a.spectra = []) :
    protoInit f a =
      (⟨some a.parent, some a.typus, some a.energy, some a.energy_err,
        some a.spectra, some a.branching, some a.nu⟩, none) := by
  cases f
  simp [protoInit, hs]

/-- After any construction, the intern cache maps the identity key to the
returned object. -/
theorem protoCall_cache (w : World) (a : PRArgs) :
    (protoCall w a).1.prCache (protoKey a) = some (protoCall w a).2.1 := by
  cases h : w.prCache (protoKey a) with
  | some o => simp [protoCall, protoNew, h]
  | none => simp [protoCall, protoNew, h]

/-- A construction whose key is interned returns the cached object. -/
theorem protoCall_hit_oid (w : World) (a : PRArgs) (o : Nat)
    (h : w.prCache (protoKey a) = some o) : (protoCall w a).2.1 = o := by
  simp [protoCall, protoNew, h]

/-- A cache hit leaves the proto intern cache untouched. -/
theorem protoCall_hit_cache (w : World) (a : PRArgs) (o : Nat)
    (h : w.prCache (protoKey a) = some o) :
    (protoCall w a).1.prCache = w.prCache := by
  simp [protoCall, protoNew, h]

/-- Constructing with empty spectra succeeds. -/
theorem protoCall_err_none (w : World) (a : PRArgs) (hs : a.spectra = []) :
    (protoCall w a).2.2 = none := by
  cases h : w.prCache (protoKey a) <;>
    simp [protoCall, protoNew, h, protoInit_full _ _ hs]

/-- Constructing with non-empty spectra raises `NotImplementedError`. -/
theorem protoCall_err_spectra (w : World) (a : PRArgs) (hs : a.spectra ≠ []) :
    (protoCall w a).2.2 = some .notImplemented := by
  have hemp : a.spectra.isEmpty = false := by
    cases hsp : a.spectra with
    | nil => exact absurd hsp hs
    | cons x xs => rfl
  cases h : w.prCache (protoKey a) <;>
    simp [protoCall, protoNew, h, protoInit, hemp]

/-- After a successful construction the returned object's attributes are
exactly the ones `__init__` assigned from the arguments. -/
theorem protoCall_heap (w : World) (a : PRArgs) (hs : a.spectra = []) :
    (protoCall w a).1.prHeap (protoCall w a).2.1 =
      some ⟨some a.parent, some a.typus, some a.energy, some a.energy_err,
            some a.spectra, some a.branching, some a.nu⟩ := by
  cases h : w.prCache (protoKey a) <;>
    simp [protoCall, protoNew, h, protoInit_full _ _ hs]

/-- Proto construction does not touch the `Reaction` / `ProductionReaction`
state. -/
theorem protoCall_frame (w : World) (a : PRArgs) :
    (protoCall w a).1.rCache = w.rCache ∧ (protoCall w a).1.rHeap = w.rHeap ∧
      (protoCall w a).1.pdCache = w.pdCache ∧
      (protoCall w a).1.pdHeap = w.pdHeap := by
  cases h : w.prCache (protoKey a) <;> simp [protoCall, protoNew, h]

/-- An object with readable content compares equal to itself. -/
theorem protoPyEq_self (w : World) (o : Nat) (c : PRContent)
    (h : contentAt w o = some c) : protoPyEq w o o = some true := by
  simp [protoPyEq, h]

/-- `Reaction` construction always leaves the returned object's attributes
re-assigned to the call's arguments. -/
theorem reactionCall_heap (w : World) (p : Nat) (t : ZAID) :
    (reactionCall w p t).1.rHeap (reactionCall w p t).2 =
      some ⟨some p, some t⟩ := by
  cases h : rLookup w p t <;> simp [reactionCall, reactionNew, h]

/-- `Reaction` construction does not touch the proto / production state. -/
theorem reactionCall_frame (w : World) (p : Nat) (t : ZAID) :
    (reactionCall w p t).1.prCache = w.prCache ∧
      (reactionCall w p t).1.prHeap = w.prHeap ∧
      (reactionCall w p t).1.pdCache = w.pdCache ∧
      (reactionCall w p t).1.pdHeap = w.pdHeap := by
  cases h : rLookup w p t <;> simp [reactionCall, reactionNew, h]

theorem reactionCall_hit (w : World) (p : Nat) (t : ZAID) (o : Nat)
    (h : rLookup w p t = some o) :
    (reactionCall w p t).2 = o ∧ (reactionCall w p t).1.rCache = w.rCache := by
  simp [reactionCall, reactionNew, h]

theorem reactionCall_miss (w : World) (p : Nat) (t : ZAID)
    (h : rLookup w p t = none) :
    (reactionCall w p t).2 = w.next ∧
      (reactionCall w p t).1.rCache = ((p, t), w.next) :: w.rCache := by
  simp [reactionCall, reactionNew, h]

/-- The cache-probe predicate depends only on the proto heap. -/
theorem rKeyMatch_congr (w w' : World) (p : Nat) (t : ZAID)
    (hh : w'.prHeap = w.prHeap) : rKeyMatch w' p t = rKeyMatch w p t := by
  funext e
  simp [rKeyMatch, contentEqB, contentAt, hh]

/-- Dict lookup in the `Reaction` cache depends only on the cache entries and
the proto heap (the stored keys' current attributes). -/
theorem rLookup_congr (w w' : World) (p : Nat) (t : ZAID)
    (hc : w'.rCache = w.rCache) (hh : w'.prHeap = w.prHeap) :
    rLookup w' p t = rLookup w p t := by
  simp only [rLookup, hc, rKeyMatch_congr w w' p t hh]

theorem pdCall_heap (w : World) (par t : ZAID) (ty : String) :
    (pdCall w par t ty).1.pdHeap (pdCall w par t ty).2 =
      some ⟨some par, some t, some ty⟩ := by
  cases h : w.pdCache (par, t, ty) <;> simp [pdCall, h]

theorem pdCall_cache (w : World) (par t : ZAID) (ty : String) :
    (pdCall w par t ty).1.pdCache (par, t, ty) = some (pdCall w par t ty).2 := by
  cases h : w.pdCache (par, t, ty) <;> simp [pdCall, h]

theorem pdCall_hit_oid (w : World) (par t : ZAID) (ty : String) (o : Nat)
    (h : w.pdCache (par, t, ty) = some o) : (pdCall w par t ty).2 = o := by
  simp [pdCall, h]

theorem pdPyEq_self (w : World) (o : Nat) (p t : ZAID) (y : String)
    (h : w.pdHeap o = some ⟨some p, some t, some y⟩) :
    pdPyEq w o o = some true := by
  simp [pdPyEq, h]

/-- The second of two identical constructions returns the same object id. -/
theorem reactionCall_twice_oid (w : World) (p : Nat) (t : ZAID) :
    (reactionCall (reactionCall w p t).1 p t).2 = (reactionCall w p t).2 := by
  cases h : rLookup w p t with
  | some o =>
      have hl : rLookup (reactionCall w p t).1 p t = some o := by
        rw [rLookup_congr w (reactionCall w p t).1 p t
             (reactionCall_hit w p t o h).2 (reactionCall_frame w p t).2.1, h]
      rw [(reactionCall_hit _ p t o hl).1, (reactionCall_hit w p t o h).1]
  | none =>
      have hm := reactionCall_miss w p t h
      have hl : rLookup (reactionCall w p t).1 p t = some w.next := by
        have hpred : rKeyMatch (reactionCall w p t).1 p t ((p, t), w.next) = true := by
          simp [rKeyMatch]
        rw [rLookup, hm.2, List.find?_cons_of_pos _ hpred]
        rfl
      rw [(reactionCall_hit _ p t _ hl).1, hm.1]

/-- C1: for each flyweight kind, constructing twice with identical
identity-key arguments returns the same object reference (`a is b`) and the
two results compare equal (`a == b`).  For `ProtoReaction` the arguments
must be valid (empty spectra), else construction itself raises. -/
theorem flyweight_construct_twice_identity (w : World) (a : PRArgs)
    (p : Nat) (t : ZAID) (par tg : ZAID) (ty : String) (hs : a.spectra = []) :
    ((protoCall (protoCall w a).1 a).2.1 = (protoCall w a).2.1 ∧
      protoPyEq (protoCall (protoCall w a).1 a).1
        (protoCall (protoCall w a).1 a).2.1 (protoCall w a).2.1 = some true) ∧
    ((reactionCall (reactionCall w p t).1 p t).2 = (reactionCall w p t).2 ∧
      reactionPyEq (reactionCall (reactionCall w p t).1 p t).1
        (reactionCall (reactionCall w p t).1 p t).2
        (reactionCall w p t).2 = some true) ∧
    ((pdCall (pdCall w par tg ty).1 par tg ty).2 = (pdCall w par tg ty).2 ∧
      pdPyEq (pdCall (pdCall w par tg ty).1 par tg ty).1
        (pdCall (pdCall w par tg ty).1 par tg ty).2
        (pdCall w par tg ty).2 = some true) := by
  refine ⟨?_, ?_, ?_⟩
  · have ho := protoCall_hit_oid (protoCall w a).1 a _ (protoCall_cache w a)
    refine ⟨ho, ?_⟩
    have hh := protoCall_heap (protoCall w a).1 a hs
    rw [ho] at hh ⊢
    exact protoPyEq_self _ _
      ⟨a.parent, a.typus, a.energy, a.energy_err, a.nu,
        a.branching.map (fun l => l.toFinset), a.spectra⟩
      (by simp [contentAt, hh, contentOf])
  · have ho := reactionCall_twice_oid w p t
    refine ⟨ho, ?_⟩
    have hh := reactionCall_heap (reactionCall w p t).1 p t
    rw [ho] at hh ⊢
    simp [reactionPyEq, hh]
  · have ho := pdCall_hit_oid (pdCall w par tg ty).1 par tg ty _
      (pdCall_cache w par tg ty)
    refine ⟨ho, ?_⟩
    have hh := pdCall_heap (pdCall w par tg ty).1 par tg ty
    rw [ho] at hh ⊢
    exact pdPyEq_self _ _ par tg ty hh

theorem flyweight_construct_twice_identity_witness :
    ((protoCall (protoCall initWorld ⟨⟨1, 1, 0⟩, "t", 0, 0, 0, some [], []⟩).1
        ⟨⟨1, 1, 0⟩, "t", 0, 0, 0, some [], []⟩).2.1 =
      (protoCall initWorld ⟨⟨1, 1, 0⟩, "t", 0, 0, 0, some [], []⟩).2.1) ∧
    ((reactionCall (reactionCall initWorld 0 ⟨1, 2, 0⟩).1 0 ⟨1, 2, 0⟩).2 =
      (reactionCall initWorld 0 ⟨1, 2, 0⟩).2) := by
  have h := flyweight_construct_twice_identity initWorld
    ⟨⟨1, 1, 0⟩, "t", 0, 0, 0, some [], []⟩ 0 ⟨1, 2, 0⟩ ⟨2, 4, 0⟩ ⟨2, 3, 0⟩ "x" rfl
  exact ⟨h.1.1, h.2.1.1⟩

/-- C9: constructing a `ProtoReaction` with non-empty spectra raises
`NotImplementedError`, but the object was already interned by `__new__`:
after the failed construction the cache maps the identity key to the new
object, so a fresh key does not leave the cache unchanged. -/
theorem proto_spectra_error_still_interns (w : World) (a : PRArgs)
    (hs : a.spectra ≠ []) :
    (protoCall w a).2.2 = some .notImplemented ∧
      (protoCall w a).1.prCache (protoKey a) = some (protoCall w a).2.1 ∧
      (w.prCache (protoKey a) = none →
        (protoCall w a).1.prCache (protoKey a) ≠ w.prCache (protoKey a)) := by
  refine ⟨protoCall_err_spectra w a hs, protoCall_cache w a, ?_⟩
  intro h0
  rw [protoCall_cache w a, h0]
  simp

theorem proto_spectra_error_still_interns_witness :
    (protoCall initWorld ⟨⟨1, 1, 0⟩, "t", 0, 0, 0, none, [()]⟩).2.2 =
        some .notImplemented ∧
      (protoCall initWorld ⟨⟨1, 1, 0⟩, "t", 0, 0, 0, none, [()]⟩).1.prCache
          (protoKey ⟨⟨1, 1, 0⟩, "t", 0, 0, 0, none, [()]⟩) ≠
        initWorld.prCache (protoKey ⟨⟨1, 1, 0⟩, "t", 0, 0, 0, none, [()]⟩) := by
  have h := proto_spectra_error_still_interns initWorld
    ⟨⟨1, 1, 0⟩, "t", 0, 0, 0, none, [()]⟩ (by simp)
  exact ⟨h.1, h.2.2 rfl⟩

/-- C10: a construction request whose identity key hits the intern cache
returns the cached object but still runs `__init__` on it, re-assigning all
stored attributes from the newest call's arguments — for `ProtoReaction` in
particular the branching attribute becomes the newest call's dict (possibly
`None` in place of an empty dict, a key-equal argument); for `Reaction` the
`_proto` attribute is re-assigned to the newest (identical or merely
equal-keyed) proto reference; for `ProductionReaction` likewise. -/
theorem flyweight_hit_reinitialises (w : World) (a a' : PRArgs)
    (p p' : Nat) (t par tg : ZAID) (ty : String)
    (hk : protoKey a' = protoKey a) (hs : a'.spectra = []) :
    ((protoCall (protoCall w a).1 a').2.1 = (protoCall w a).2.1 ∧
      (protoCall (protoCall w a).1 a').1.prHeap (protoCall w a).2.1 =
        some ⟨some a'.parent, some a'.typus, some a'.energy, some a'.energy_err,
              some a'.spectra, some a'.branching, some a'.nu⟩) ∧
    (rLookup w p t = none →
      (p = p' ∨ contentEqB (reactionCall w p t).1 p p' = true) →
      (reactionCall (reactionCall w p t).1 p' t).2 = (reactionCall w p t).2 ∧
        (reactionCall (reactionCall w p t).1 p' t).1.rHeap
            (reactionCall w p t).2 = some ⟨some p', some t⟩) ∧
    ((pdCall (pdCall w par tg ty).1 par tg ty).2 = (pdCall w par tg ty).2 ∧
      (pdCall (pdCall w par tg ty).1 par tg ty).1.pdHeap
          (pdCall w par tg ty).2 = some ⟨some par, some tg, some ty⟩) := by
  refine ⟨?_, ?_, ?_⟩
  · have h1 : (protoCall w a).1.prCache (protoKey a') =
        some (protoCall w a).2.1 := by
      rw [hk]
      exact protoCall_cache w a
    have ho := protoCall_hit_oid (protoCall w a).1 a' _ h1
    refine ⟨ho, ?_⟩
    have hh := protoCall_heap (protoCall w a).1 a' hs
    rw [ho] at hh
    exact hh
  · intro hfresh hp
    have hm := reactionCall_miss w p t hfresh
    have hl : rLookup (reactionCall w p t).1 p' t = some w.next := by
      have hpred : rKeyMatch (reactionCall w p t).1 p' t ((p, t), w.next) = true := by
        rcases hp with h | h
        · simp [rKeyMatch, h]
        · simp [rKeyMatch, h]
      rw [rLookup, hm.2, List.find?_cons_of_pos _ hpred]
      rfl
    constructor
    · rw [(reactionCall_hit _ p' t _ hl).1, hm.1]
    · have hh := reactionCall_heap (reactionCall w p t).1 p' t
      rw [(reactionCall_hit _ p' t _ hl).1] at hh
      rw [hm.1]
      exact hh
  · have ho := pdCall_hit_oid (pdCall w par tg ty).1 par tg ty _
      (pdCall_cache w par tg ty)
    refine ⟨ho, ?_⟩
    have hh := pdCall_heap (pdCall w par tg ty).1 par tg ty
    rw [ho] at hh
    exact hh

theorem flyweight_hit_reinitialises_witness :
    (protoCall (protoCall initWorld ⟨⟨1, 1, 0⟩, "t", 0, 0, 0, some [], []⟩).1
        ⟨⟨1, 1, 0⟩, "t", 0, 0, 0, none, []⟩).2.1 =
      (protoCall initWorld ⟨⟨1, 1, 0⟩, "t", 0, 0, 0, some [], []⟩).2.1 ∧
    (protoCall (protoCall initWorld ⟨⟨1, 1, 0⟩, "t", 0, 0, 0, some [], []⟩).1
        ⟨⟨1, 1, 0⟩, "t", 0, 0, 0, none, []⟩).1.prHeap
        (protoCall initWorld ⟨⟨1, 1, 0⟩, "t", 0, 0, 0, some [], []⟩).2.1 =
      some ⟨some ⟨1, 1, 0⟩, some "t", some 0, some 0, some [], some none, some 0⟩ := by
  have h := flyweight_hit_reinitialises initWorld
    ⟨⟨1, 1, 0⟩, "t", 0, 0, 0, some [], []⟩ ⟨⟨1, 1, 0⟩, "t", 0, 0, 0, none, []⟩
    0 0 ⟨1, 2, 0⟩ ⟨2, 4, 0⟩ ⟨2, 3, 0⟩ "x" (by decide) rfl
  exact h.1

/-- Invariant of reachable states: every `Reaction` cache entry's object
stores its key's target in `_target` (maintained by every construction). -/
def ReactionCacheTargets (w : World) : Prop :=
  ∀ e ∈ w.rCache, (w.rHeap e.2).bind RFields.target = some e.1.2

/-- Invariant of reachable states: object ids at or above the allocator
counter are unused. -/
def ReactionHeapFresh (w : World) : Prop :=
  ∀ i, w.next ≤ i → w.rHeap i = none

theorem rLookup_some (w : World) (p : Nat) (t : ZAID) (o : Nat)
    (h : rLookup w p t = some o) : ∃ e ∈ w.rCache, e.2 = o ∧ e.1.2 = t := by
  unfold rLookup at h
  cases hf : List.find? (rKeyMatch w p t) w.rCache with
  | none => rw [hf] at h; cases h
  | some e =>
      rw [hf] at h
      refine ⟨e, List.mem_of_find?_eq_some hf, by simpa using h, ?_⟩
      have hp := List.find?_some hf
      simp [rKeyMatch] at hp
      exact hp.2

theorem reactionCall_rHeap_other (w : World) (p : Nat) (t : ZAID) (r0 : Nat)
    (hne : r0 ≠ (reactionCall w p t).2) :
    (reactionCall w p t).1.rHeap r0 = w.rHeap r0 := by
  cases h : rLookup w p t with
  | some o =>
      rw [(reactionCall_hit w p t o h).1] at hne
      simp [reactionCall, reactionNew, h, hne]
  | none =>
      rw [(reactionCall_miss w p t h).1] at hne
      simp [reactionCall, reactionNew, h, hne]

theorem reactionCall_next_hit (w : World) (p : Nat) (t : ZAID) (o : Nat)
    (h : rLookup w p t = some o) : (reactionCall w p t).1.next = w.next := by
  simp [reactionCall, reactionNew, h]

theorem reactionCall_next_miss (w : World) (p : Nat) (t : ZAID)
    (h : rLookup w p t = none) : (reactionCall w p t).1.next = w.next + 1 := by
  simp [reactionCall, reactionNew, h]

/-- Specification of one `Reaction(proto, target)` construction: the two
invariants are maintained, and every object of the same proto keeps its
stored attributes (it is only ever re-initialised with the values it already
has). -/
theorem reactionCall_spec (w : World) (p : Nat) (t : ZAID)
    (h1 : ReactionCacheTargets w) (h2 : ReactionHeapFresh w) :
    ReactionCacheTargets (reactionCall w p t).1 ∧
      ReactionHeapFresh (reactionCall w p t).1 ∧
      (∀ r0 t0, w.rHeap r0 = some ⟨some p, some t0⟩ →
          (reactionCall w p t).1.rHeap r0 = some ⟨some p, some t0⟩) := by
  cases h : rLookup w p t with
  | some o =>
      obtain ⟨e, he, heo, het⟩ := rLookup_some w p t o h
      have hto : (w.rHeap o).bind RFields.target = some t := by
        have h3 := h1 e he
        rw [heo, het] at h3
        exact h3
      have holt : o < w.next := by
        by_contra hge
        push_neg at hge
        rw [h2 o hge] at hto
        cases hto
      have hoid := (reactionCall_hit w p t o h).1
      have hcache := (reactionCall_hit w p t o h).2
      have hnext := reactionCall_next_hit w p t o h
      have hho := reactionCall_heap w p t
      rw [hoid] at hho
      refine ⟨?_, ?_, ?_⟩
      · intro e' he'
        rw [hcache] at he'
        by_cases hc : e'.2 = o
        · have h4 := h1 e' he'
          rw [hc] at h4
          rw [hc, hho]
          rw [hto] at h4
          simpa using h4
        · rw [reactionCall_rHeap_other w p t e'.2 (by rw [hoid]; exact hc)]
          exact h1 e' he'
      · intro i hi
        rw [hnext] at hi
        have hio : i ≠ o := by omega
        rw [reactionCall_rHeap_other w p t i (by rw [hoid]; exact hio)]
        exact h2 i hi
      · intro r0 t0 hr0
        by_cases hc : r0 = o
        · rw [hc] at hr0 ⊢
          rw [hr0] at hto
          have ht0 : t0 = t := by
            simpa using hto
          rw [hho, ht0]
        · rw [reactionCall_rHeap_other w p t r0 (by rw [hoid]; exact hc)]
          exact hr0
  | none =>
      have hm := reactionCall_miss w p t h
      have hnext := reactionCall_next_miss w p t h
      have hho := reactionCall_heap w p t
      rw [hm.1] at hho
      refine ⟨?_, ?_, ?_⟩
      · intro e' he'
        rw [hm.2] at he'
        rcases List.mem_cons.mp he' with rfl | hmem
        · rw [hho]
          rfl
        · have hlt : e'.2 < w.next := by
            by_contra hge
            push_neg at hge
            have h4 := h1 e' hmem
            rw [h2 e'.2 hge] at h4
            cases h4
          rw [reactionCall_rHeap_other w p t e'.2 (by rw [hm.1]; omega)]
          exact h1 e' hmem
      · intro i hi
        rw [hnext] at hi
        rw [reactionCall_rHeap_other w p t i (by rw [hm.1]; omega)]
        exact h2 i (by omega)
      · intro r0 t0 hr0
        have hlt : r0 < w.next := by
          by_contra hge
          push_neg at hge
          rw [h2 r0 hge] at hr0
          cases hr0
        rw [reactionCall_rHeap_other w p t r0 (by rw [hm.1]; omega)]
        exact hr0

/-- Consuming the branch generator maintains the reachability invariants,
never touches the proto heap, preserves the attributes of reactions of the
same proto, and produces pairs matching the branching dict entry-wise: the
weight is the entry's weight and the constructed reaction stores the proto
and the entry's target. -/
theorem branchLoop_spec (o : Nat) (l : BDict) : ∀ (w : World),
    ReactionCacheTargets w → ReactionHeapFresh w →
    ReactionCacheTargets (branchLoop w o l).1 ∧
      ReactionHeapFresh (branchLoop w o l).1 ∧
      (branchLoop w o l).1.prHeap = w.prHeap ∧
      (∀ r0 t0, w.rHeap r0 = some ⟨some o, some t0⟩ →
          (branchLoop w o l).1.rHeap r0 = some ⟨some o, some t0⟩) ∧
      List.Forall₂ (fun (e : Nat × Rat) (tw : ZAID × Rat) =>
          e.2 = tw.2 ∧
            (branchLoop w o l).1.rHeap e.1 = some ⟨some o, some tw.1⟩)
        (branchLoop w o l).2 l := by
  induction l with
  | nil =>
      intro w hw1 hw2
      refine ⟨hw1, hw2, rfl, fun r0 t0 h => h, ?_⟩
      simp [branchLoop]
  | cons hd tl ih =>
      intro w hw1 hw2
      obtain ⟨t, b⟩ := hd
      have hspec := reactionCall_spec w o t hw1 hw2
      have hcall_heap := reactionCall_heap w o t
      have hcall_frame := (reactionCall_frame w o t).2.1
      have hrec := ih (reactionCall w o t).1 hspec.1 hspec.2.1
      have heq1 : (branchLoop w o ((t, b) :: tl)).1 =
          (branchLoop (reactionCall w o t).1 o tl).1 := by
        simp [branchLoop]
      have heq2 : (branchLoop w o ((t, b) :: tl)).2 =
          ((reactionCall w o t).2, b) ::
            (branchLoop (reactionCall w o t).1 o tl).2 := by
        simp [branchLoop]
      rw [heq1, heq2]
      refine ⟨hrec.1, hrec.2.1, ?_, ?_, ?_⟩
      · rw [hrec.2.2.1, hcall_frame]
      · intro r0 t0 h
        exact hrec.2.2.2.1 r0 t0 (hspec.2.2 r0 t0 h)
      · refine List.Forall₂.cons ⟨rfl, ?_⟩ hrec.2.2.2.2
        exact hrec.2.2.2.1 (reactionCall w o t).2 t hcall_heap

/-- C5: `ProtoReaction.branches()` yields exactly one `(Reaction(p, target),
weight)` pair per entry `(target, weight)` of `p.branching` — in particular
zero pairs when the branching dict is empty — with each yielded reaction
being the interned `Reaction` of `p` and that target; `Reaction.branches()`
always yields exactly the single pair `(self, 1.0)`, whatever the underlying
branching. -/
theorem proto_branches_one_per_entry (w : World) (o : Nat) (f : PRFields)
    (l : BDict) (h1 : ReactionCacheTargets w) (h2 : ReactionHeapFresh w)
    (hf : w.prHeap o = some f) (hb : f.branching = some (some l)) :
    protoBranches w o = ((branchLoop w o l).1, .ok (branchLoop w o l).2) ∧
      (branchLoop w o l).2.length = l.length ∧
      (l = [] → (branchLoop w o l).2 = []) ∧
      List.Forall₂ (fun (e : Nat × Rat) (tw : ZAID × Rat) =>
          e.2 = tw.2 ∧
            (branchLoop w o l).1.rHeap e.1 = some ⟨some o, some tw.1⟩)
        (branchLoop w o l).2 l ∧
      (∀ (w' : World) (ro : Nat), reactionBranches w' ro = (w', .ok [(ro, 1)])) := by
  have hall := branchLoop_spec o l w h1 h2
  refine ⟨by simp [protoBranches, hf, hb], ?_, ?_, hall.2.2.2.2, fun w' ro => rfl⟩
  · exact List.Forall₂.length_eq hall.2.2.2.2
  · intro hl
    subst hl
    simp [branchLoop]

theorem proto_branches_one_per_entry_witness :
    (protoBranches (protoCall initWorld
        ⟨⟨1, 1, 0⟩, "t", 0, 0, 0,
          some [(⟨1, 2, 0⟩, 3/10), (⟨2, 4, 0⟩, 7/10)], []⟩).1 0).2 =
      .ok [(1, 3/10), (2, 7/10)] := by
  have h := proto_branches_one_per_entry
    (protoCall initWorld ⟨⟨1, 1, 0⟩, "t", 0, 0, 0,
      some [(⟨1, 2, 0⟩, 3/10), (⟨2, 4, 0⟩, 7/10)], []⟩).1 0
    ⟨some ⟨1, 1, 0⟩, some "t", some 0, some 0, some [],
      some (some [(⟨1, 2, 0⟩, 3/10), (⟨2, 4, 0⟩, 7/10)]), some 0⟩
    [(⟨1, 2, 0⟩, 3/10), (⟨2, 4, 0⟩, 7/10)]
    (by
      intro e he
      rw [(protoCall_frame initWorld _).1] at he
      simp [initWorld] at he)
    (by
      intro i hi
      rw [(protoCall_frame initWorld _).2.1]
      rfl)
    (by rfl) rfl
  rw [h.1]
  rfl

/-- C6: `ReactionRate.expand()` yields exactly one rate per pair produced by
`reaction.branches()`: same component, the branch's reaction, and mean and
std each multiplied by the branch weight.  For a proto-wrapped rate that is
one rate per branching entry (nothing when the branching dict is empty); a
rate wrapping a `Reaction` or a `ProductionReaction` expands to exactly one
rate scaled by the single branch's weight `1`. -/
theorem rate_expand_per_branch (w : World) (comp : String) (o : Nat)
    (m sd : Rat) (f : PRFields) (l : BDict)
    (h1 : ReactionCacheTargets w) (h2 : ReactionHeapFresh w)
    (hf : w.prHeap o = some f) (hb : f.branching = some (some l)) :
    (rateExpand w ⟨comp, .proto o, m, sd⟩).2 =
        .ok ((branchLoop w o l).2.map (fun e =>
          ⟨comp, .reac e.1, m * e.2, sd * e.2⟩)) ∧
      (l = [] → (rateExpand w ⟨comp, .proto o, m, sd⟩).2 = .ok []) ∧
      List.Forall₂ (fun (rr : ReactionRate) (tw : ZAID × Rat) =>
          rr.component = comp ∧ rr.mean = m * tw.2 ∧ rr.std = sd * tw.2 ∧
            ∃ ri, rr.reaction = .reac ri ∧
              (rateExpand w ⟨comp, .proto o, m, sd⟩).1.rHeap ri =
                some ⟨some o, some tw.1⟩)
        ((branchLoop w o l).2.map (fun e =>
          ⟨comp, .reac e.1, m * e.2, sd * e.2⟩)) l ∧
      (∀ (w' : World) (c : String) (ro : Nat) (m' sd' : Rat),
          rateExpand w' ⟨c, .reac ro, m', sd'⟩ =
            (w', .ok [⟨c, .reac ro, m', sd'⟩])) ∧
      (∀ (w' : World) (c : String) (ro : Nat) (m' sd' : Rat),
          rateExpand w' ⟨c, .prod ro, m', sd'⟩ =
            (w', .ok [⟨c, .prod ro, m', sd'⟩])) := by
  have hpb : protoBranches w o = ((branchLoop w o l).1, .ok (branchLoop w o l).2) := by
    simp [protoBranches, hf, hb]
  have hre : rateExpand w ⟨comp, .proto o, m, sd⟩ =
      ((branchLoop w o l).1, .ok ((branchLoop w o l).2.map (fun e =>
        ⟨comp, .reac e.1, m * e.2, sd * e.2⟩))) := by
    simp [rateExpand, refBranches, hpb, Except.map, List.map_map]
  have hall := branchLoop_spec o l w h1 h2
  refine ⟨by rw [hre], ?_, ?_, ?_, ?_⟩
  · intro hl
    subst hl
    rw [hre]
    simp [branchLoop]
  · rw [hre]
    rw [List.forall₂_map_left_iff]
    exact hall.2.2.2.2.imp
      (fun e tw h => ⟨rfl, by rw [h.1], by rw [h.1], e.1, rfl, h.2⟩)
  · intro w' c ro m' sd'
    simp [rateExpand, refBranches, reactionBranches, Except.map, mul_one]
  · intro w' c ro m' sd'
    simp [rateExpand, refBranches, pdBranches, Except.map, mul_one]

theorem rate_expand_per_branch_witness :
    (rateExpand (protoCall initWorld
        ⟨⟨1, 1, 0⟩, "t", 0, 0, 0,
          some [(⟨1, 2, 0⟩, 3/10), (⟨2, 4, 0⟩, 7/10)], []⟩).1
        ⟨"c", .proto 0, 10, 1⟩).2 =
      .ok [⟨"c", .reac 1, 10 * (3/10), 1 * (3/10)⟩,
           ⟨"c", .reac 2, 10 * (7/10), 1 * (7/10)⟩] ∧
      (10 : Rat) * (3/10) = 3 ∧ (1 : Rat) * (3/10) = 3/10 ∧
      (10 : Rat) * (7/10) = 7 ∧ (1 : Rat) * (7/10) = 7/10 ∧
      rateExpand initWorld ⟨"c", .reac 5, 10, 1⟩ =
        (initWorld, .ok [⟨"c", .reac 5, 10, 1⟩]) ∧
      rateExpand initWorld ⟨"c", .prod 5, 10, 1⟩ =
        (initWorld, .ok [⟨"c", .prod 5, 10, 1⟩]) := by
  have h := rate_expand_per_branch
    (protoCall initWorld ⟨⟨1, 1, 0⟩, "t", 0, 0, 0,
      some [(⟨1, 2, 0⟩, 3/10), (⟨2, 4, 0⟩, 7/10)], []⟩).1 "c" 0 10 1
    ⟨some ⟨1, 1, 0⟩, some "t", some 0, some 0, some [],
      some (some [(⟨1, 2, 0⟩, 3/10), (⟨2, 4, 0⟩, 7/10)]), some 0⟩
    [(⟨1, 2, 0⟩, 3/10), (⟨2, 4, 0⟩, 7/10)]
    (by
      intro e he
      rw [(protoCall_frame initWorld _).1] at he
      simp [initWorld] at he)
    (by
      intro i hi
      rw [(protoCall_frame initWorld _).2.1]
      rfl)
    (by rfl) rfl
  refine ⟨?_, by norm_num, by norm_num, by norm_num, by norm_num,
    h.2.2.2.1 initWorld "c" 5 10 1, h.2.2.2.2 initWorld "c" 5 10 1⟩
  rw [h.1]
  rfl

/-- Deserializing a proto's serialized fields reconstructs with the same
identity key: the falsy-branching-to-`None` step freezes to the same
frozenset. -/
theorem envToArgs_key (a : PRArgs) :
    protoKey (envToArgs ⟨a.parent, a.typus, a.energy, a.energy_err, a.spectra,
      a.branching, a.nu⟩) = protoKey a := by
  cases hb : a.branching with
  | none => simp [envToArgs, protoKey, hb, brFreeze]
  | some l =>
      cases l with
      | nil => simp [envToArgs, protoKey, hb, brFreeze]
      | cons x xs => simp [envToArgs, protoKey, hb, brFreeze]

theorem isClose_self (q : Rat) : isClose q q = true := by
  simp only [isClose, sub_self, abs_zero, decide_eq_true_eq]
  positivity

/-- Round-trip of a freshly (re-)constructed `ProtoReaction` within the same
cache lifetime: serialization emits the constructor arguments, and
deserializing them re-interns to the very same object, which then compares
equal to itself. -/
theorem proto_roundtrip (w : World) (a : PRArgs) (hs : a.spectra = []) :
    protoSerialize (((protoCall w a).1.prHeap (protoCall w a).2.1).getD {}) =
        some ("ProtoReaction",
          ⟨a.parent, a.typus, a.energy, a.energy_err, a.spectra,
            a.branching, a.nu⟩) ∧
      (protoDeserialize (protoCall w a).1
          ⟨a.parent, a.typus, a.energy, a.energy_err, a.spectra,
            a.branching, a.nu⟩).2.1 = (protoCall w a).2.1 ∧
      (protoDeserialize (protoCall w a).1
          ⟨a.parent, a.typus, a.energy, a.energy_err, a.spectra,
            a.branching, a.nu⟩).2.2 = none ∧
      protoPyEq (protoDeserialize (protoCall w a).1
          ⟨a.parent, a.typus, a.energy, a.energy_err, a.spectra,
            a.branching, a.nu⟩).1
        (protoDeserialize (protoCall w a).1
          ⟨a.parent, a.typus, a.energy, a.energy_err, a.spectra,
            a.branching, a.nu⟩).2.1 (protoCall w a).2.1 = some true := by
  have hheap := protoCall_heap w a hs
  have hkey : (protoCall w a).1.prCache (protoKey (envToArgs
      ⟨a.parent, a.typus, a.energy, a.energy_err, a.spectra,
        a.branching, a.nu⟩)) = some (protoCall w a).2.1 := by
    rw [envToArgs_key a]
    exact protoCall_cache w a
  have hsd : (envToArgs ⟨a.parent, a.typus, a.energy, a.energy_err, a.spectra,
      a.branching, a.nu⟩).spectra = [] := hs
  have hoid : (protoDeserialize (protoCall w a).1
      ⟨a.parent, a.typus, a.energy, a.energy_err, a.spectra,
        a.branching, a.nu⟩).2.1 = (protoCall w a).2.1 :=
    protoCall_hit_oid _ _ _ hkey
  refine ⟨by rw [hheap]; rfl, hoid, protoCall_err_none _ _ hsd, ?_⟩
  rw [hoid]
  have hh2 := protoCall_heap (protoCall w a).1 (envToArgs
    ⟨a.parent, a.typus, a.energy, a.energy_err, a.spectra, a.branching, a.nu⟩) hsd
  rw [protoCall_hit_oid _ _ _ hkey] at hh2
  simp only [protoDeserialize] at hh2 ⊢
  simp [protoPyEq, contentAt, hh2, contentOf]

/-- Round-trip of a freshly (re-)constructed `ProductionReaction` within the
same cache lifetime. -/
theorem pd_roundtrip (w : World) (par t : ZAID) (ty : String) :
    pdSerialize (pdCall w par t ty).1 (pdCall w par t ty).2 =
        some ("ProductionReaction", ⟨par, t, ty⟩) ∧
      (pdDeserialize (pdCall w par t ty).1 ⟨par, t, ty⟩).2 =
        (pdCall w par t ty).2 ∧
      pdPyEq (pdDeserialize (pdCall w par t ty).1 ⟨par, t, ty⟩).1
        (pdCall w par t ty).2 (pdCall w par t ty).2 = some true := by
  have hheap := pdCall_heap w par t ty
  have hoid : (pdDeserialize (pdCall w par t ty).1 ⟨par, t, ty⟩).2 =
      (pdCall w par t ty).2 :=
    pdCall_hit_oid _ par t ty _ (pdCall_cache w par t ty)
  refine ⟨by rw [pdSerialize, hheap], hoid, ?_⟩
  have hh2 := pdCall_heap (pdCall w par t ty).1 par t ty
  rw [pdCall_hit_oid _ par t ty _ (pdCall_cache w par t ty)] at hh2
  exact pdPyEq_self _ _ par t ty hh2

/-- Round-trip of a `Reaction` built on a fresh reaction cache: serializing
nests the proto's envelope; deserializing re-interns the proto to the same
object and then the reaction to the same object, which compares equal to
itself. -/
theorem reaction_roundtrip (w : World) (a : PRArgs) (t : ZAID)
    (hs : a.spectra = []) (hrc : w.rCache = []) :
    reactionSerialize (reactionCall (protoCall w a).1 (protoCall w a).2.1 t).1
        (reactionCall (protoCall w a).1 (protoCall w a).2.1 t).2 =
      some ("ConcreteReaction",
        ⟨("ProtoReaction", ⟨a.parent, a.typus, a.energy, a.energy_err,
            a.spectra, a.branching, a.nu⟩), t⟩) ∧
    (reactionDeserialize
        (reactionCall (protoCall w a).1 (protoCall w a).2.1 t).1
        ⟨("ProtoReaction", ⟨a.parent, a.typus, a.energy, a.energy_err,
            a.spectra, a.branching, a.nu⟩), t⟩).2 =
      .ok (reactionCall (protoCall w a).1 (protoCall w a).2.1 t).2 ∧
    reactionPyEq (reactionDeserialize
        (reactionCall (protoCall w a).1 (protoCall w a).2.1 t).1
        ⟨("ProtoReaction", ⟨a.parent, a.typus, a.energy, a.energy_err,
            a.spectra, a.branching, a.nu⟩), t⟩).1
      (reactionCall (protoCall w a).1 (protoCall w a).2.1 t).2
      (reactionCall (protoCall w a).1 (protoCall w a).2.1 t).2 = some true := by
  have hpr_heap := protoCall_heap w a hs
  have hrc1 : (protoCall w a).1.rCache = [] := by
    rw [(protoCall_frame w a).1, hrc]
  have hlk : rLookup (protoCall w a).1 (protoCall w a).2.1 t = none := by
    simp [rLookup, hrc1]
  have hm := reactionCall_miss (protoCall w a).1 (protoCall w a).2.1 t hlk
  have hr_heap := reactionCall_heap (protoCall w a).1 (protoCall w a).2.1 t
  have hfr := reactionCall_frame (protoCall w a).1 (protoCall w a).2.1 t
  -- the proto re-interns to the same object, with no error
  have hkey : (reactionCall (protoCall w a).1 (protoCall w a).2.1 t).1.prCache
      (protoKey (envToArgs ⟨a.parent, a.typus, a.energy, a.energy_err,
        a.spectra, a.branching, a.nu⟩)) = some (protoCall w a).2.1 := by
    rw [hfr.1, envToArgs_key a]
    exact protoCall_cache w a
  have hoidp := protoCall_hit_oid _ (envToArgs ⟨a.parent, a.typus, a.energy,
    a.energy_err, a.spectra, a.branching, a.nu⟩) _ hkey
  have herrp := protoCall_err_none
    (reactionCall (protoCall w a).1 (protoCall w a).2.1 t).1
    (envToArgs ⟨a.parent, a.typus, a.energy, a.energy_err, a.spectra,
      a.branching, a.nu⟩) hs
  -- the reaction cache as seen by the inner reconstruction
  have hrc3 : (protoCall (reactionCall (protoCall w a).1 (protoCall w a).2.1 t).1
      (envToArgs ⟨a.parent, a.typus, a.energy, a.energy_err, a.spectra,
        a.branching, a.nu⟩)).1.rCache =
      [(((protoCall w a).2.1, t), (protoCall w a).1.next)] := by
    rw [(protoCall_frame _ _).1, hm.2, hrc1]
  have hlk3 : rLookup (protoCall (reactionCall (protoCall w a).1
      (protoCall w a).2.1 t).1 (envToArgs ⟨a.parent, a.typus, a.energy,
        a.energy_err, a.spectra, a.branching, a.nu⟩)).1
      (protoCall w a).2.1 t = some (protoCall w a).1.next := by
    rw [rLookup, hrc3, List.find?_cons_of_pos _ (by simp [rKeyMatch])]
    rfl
  refine ⟨?_, ?_, ?_⟩
  · simp [reactionSerialize, hr_heap, hfr.2.1, hpr_heap, protoSerialize]
  · simp only [reactionDeserialize, protoDeserialize] at herrp hoidp ⊢
    rw [herrp]
    simp only [hoidp]
    rw [(reactionCall_hit _ _ t _ hlk3).1, hm.1]
  · simp only [reactionDeserialize, protoDeserialize] at herrp hoidp ⊢
    rw [herrp]
    simp only [hoidp]
    have hh4 := reactionCall_heap (protoCall (reactionCall (protoCall w a).1
      (protoCall w a).2.1 t).1 (envToArgs ⟨a.parent, a.typus, a.energy,
        a.energy_err, a.spectra, a.branching, a.nu⟩)).1 (protoCall w a).2.1 t
    rw [(reactionCall_hit _ _ t _ hlk3).1] at hh4
    rw [hm.1]
    simp [reactionPyEq, hh4]

/-- Round-trip of a `ReactionRate` wrapping a `ProductionReaction`: the
nested reaction envelope re-interns to the same object, and the decoded rate
compares equal (exact statistics, same interned reaction). -/
theorem rate_roundtrip_prod (w : World) (par t : ZAID) (ty comp : String)
    (m sd : Rat) :
    rateSerialize (pdCall w par t ty).1
        ⟨comp, .prod (pdCall w par t ty).2, m, sd⟩ =
      some ("ReactionRate", ⟨comp, .prod ⟨par, t, ty⟩, m, sd⟩) ∧
    (rateDeserialize (pdCall w par t ty).1
        ⟨comp, .prod ⟨par, t, ty⟩, m, sd⟩).2 =
      .ok ⟨comp, .prod (pdCall w par t ty).2, m, sd⟩ ∧
    ratePyEq (rateDeserialize (pdCall w par t ty).1
        ⟨comp, .prod ⟨par, t, ty⟩, m, sd⟩).1
      ⟨comp, .prod (pdCall w par t ty).2, m, sd⟩
      ⟨comp, .prod (pdCall w par t ty).2, m, sd⟩ = some true := by
  have h := pd_roundtrip w par t ty
  refine ⟨?_, ?_, ?_⟩
  · simp [rateSerialize, h.1]
  · simp only [rateDeserialize, envDispatch]
    rw [h.2.1]
    rfl
  · have hh2 := pdCall_heap (pdCall w par t ty).1 par t ty
    rw [pdCall_hit_oid _ par t ty _ (pdCall_cache w par t ty)] at hh2
    simp only [rateDeserialize, envDispatch, pdDeserialize] at hh2 ⊢
    simp [ratePyEq, refPyEq, pdPyEq, hh2, isClose_self]

/-- C2: `ReactionCategory` sits in the `jsonable` registry but implements no
serialization protocol at all — it has no `ser_identifier` and no
`serialize`/`deserialize`, so serializing any `ReactionCategory` (and even
building the tag registry over `jsonable`) raises `AttributeError` and the
claimed round-trip law fails for that kind.  The five kinds that do
implement the protocol satisfy the round-trip law, the three flyweight kinds
re-interning to the very same object when decoded in the same cache
lifetime. -/
theorem serialization_roundtrip_status :
    (serIdentifier? .reactionCategory = none ∧
      implementsSerialize .reactionCategory = false) ∧
    (∀ p : Particle, particleDeserialize (particleSerialize p).2 = p) ∧
    (∀ (w : World) (a : PRArgs), a.spectra = [] →
      protoSerialize (((protoCall w a).1.prHeap (protoCall w a).2.1).getD {}) =
          some ("ProtoReaction",
            ⟨a.parent, a.typus, a.energy, a.energy_err, a.spectra,
              a.branching, a.nu⟩) ∧
        (protoDeserialize (protoCall w a).1
            ⟨a.parent, a.typus, a.energy, a.energy_err, a.spectra,
              a.branching, a.nu⟩).2.1 = (protoCall w a).2.1 ∧
        (protoDeserialize (protoCall w a).1
            ⟨a.parent, a.typus, a.energy, a.energy_err, a.spectra,
              a.branching, a.nu⟩).2.2 = none ∧
        protoPyEq (protoDeserialize (protoCall w a).1
            ⟨a.parent, a.typus, a.energy, a.energy_err, a.spectra,
              a.branching, a.nu⟩).1
          (protoDeserialize (protoCall w a).1
            ⟨a.parent, a.typus, a.energy, a.energy_err, a.spectra,
              a.branching, a.nu⟩).2.1 (protoCall w a).2.1 = some true) ∧
    (∀ (w : World) (par t : ZAID) (ty : String),
      pdSerialize (pdCall w par t ty).1 (pdCall w par t ty).2 =
          some ("ProductionReaction", ⟨par, t, ty⟩) ∧
        (pdDeserialize (pdCall w par t ty).1 ⟨par, t, ty⟩).2 =
          (pdCall w par t ty).2 ∧
        pdPyEq (pdDeserialize (pdCall w par t ty).1 ⟨par, t, ty⟩).1
          (pdCall w par t ty).2 (pdCall w par t ty).2 = some true) ∧
    (∀ (w : World) (a : PRArgs) (t : ZAID), a.spectra = [] → w.rCache = [] →
      reactionSerialize
          (reactionCall (protoCall w a).1 (protoCall w a).2.1 t).1
          (reactionCall (protoCall w a).1 (protoCall w a).2.1 t).2 =
        some ("ConcreteReaction",
          ⟨("ProtoReaction", ⟨a.parent, a.typus, a.energy, a.energy_err,
              a.spectra, a.branching, a.nu⟩), t⟩) ∧
      (reactionDeserialize
          (reactionCall (protoCall w a).1 (protoCall w a).2.1 t).1
          ⟨("ProtoReaction", ⟨a.parent, a.typus, a.energy, a.energy_err,
              a.spectra, a.branching, a.nu⟩), t⟩).2 =
        .ok (reactionCall (protoCall w a).1 (protoCall w a).2.1 t).2 ∧
      reactionPyEq (reactionDeserialize
          (reactionCall (protoCall w a).1 (protoCall w a).2.1 t).1
          ⟨("ProtoReaction", ⟨a.parent, a.typus, a.energy, a.energy_err,
              a.spectra, a.branching, a.nu⟩), t⟩).1
        (reactionCall (protoCall w a).1 (protoCall w a).2.1 t).2
        (reactionCall (protoCall w a).1 (protoCall w a).2.1 t).2 = some true) ∧
    (∀ (w : World) (par t : ZAID) (ty comp : String) (m sd : Rat),
      rateSerialize (pdCall w par t ty).1
          ⟨comp, .prod (pdCall w par t ty).2, m, sd⟩ =
        some ("ReactionRate", ⟨comp, .prod ⟨par, t, ty⟩, m, sd⟩) ∧
      (rateDeserialize (pdCall w par t ty).1
          ⟨comp, .prod ⟨par, t, ty⟩, m, sd⟩).2 =
        .ok ⟨comp, .prod (pdCall w par t ty).2, m, sd⟩ ∧
      ratePyEq (rateDeserialize (pdCall w par t ty).1
          ⟨comp, .prod ⟨par, t, ty⟩, m, sd⟩).1
        ⟨comp, .prod (pdCall w par t ty).2, m, sd⟩
        ⟨comp, .prod (pdCall w par t ty).2, m, sd⟩ = some true) :=
  ⟨⟨rfl, rfl⟩, fun _ => rfl, proto_roundtrip, pd_roundtrip,
    reaction_roundtrip, rate_roundtrip_prod⟩

theorem serialization_roundtrip_status_witness :
    (protoDeserialize
        (protoCall initWorld ⟨⟨1, 1, 0⟩, "t", 0, 0, 0, some [], []⟩).1
        ⟨⟨1, 1, 0⟩, "t", 0, 0, [], some [], 0⟩).2.1 =
      (protoCall initWorld ⟨⟨1, 1, 0⟩, "t", 0, 0, 0, some [], []⟩).2.1 ∧
    particleDeserialize (particleSerialize Photon).2 = Photon ∧
    (pdDeserialize (pdCall initWorld ⟨1, 1, 0⟩ ⟨1, 2, 0⟩ "y").1
        ⟨⟨1, 1, 0⟩, ⟨1, 2, 0⟩, "y"⟩).2 =
      (pdCall initWorld ⟨1, 1, 0⟩ ⟨1, 2, 0⟩ "y").2 := by
  have h := serialization_roundtrip_status
  exact ⟨(h.2.2.1 initWorld ⟨⟨1, 1, 0⟩, "t", 0, 0, 0, some [], []⟩ rfl).2.1,
    h.2.1 Photon,
    (h.2.2.2.1 initWorld ⟨1, 1, 0⟩ ⟨1, 2, 0⟩ "y").2.1⟩
